import Mathlib

/-!
Verification of the salesAgent conversational ordering assistant.

The embedding follows the Python source under `src/`:
- `src/src/agents/agents.py` (OrderItem, ChatContext, HandoffData, Agents.run),
- `src/src/db/supabase_client.py` (initialize_supabase_client),
- `src/src/db/database.py` (get_products),
- `src/src/payments/mp.py` (create_mercadopago_link).

Operations that the specification describes but whose code is not present in
the provided sources (the Order Aggregate's `addItem`, the Session Manager's
pruning / extraction pipeline, the hand-off snapshot and price backfill) are
modelled from the specification text; each such definition carries a doc
comment starting with `Modelled from the spec:`.

Monetary amounts are modelled as rationals; machine floats play no role in
the claims considered here.
-/

namespace SalesAgent

/-- A line item of the Order Aggregate, from `OrderItem` in
`src/src/agents/agents.py`: product name, quantity, optional unit price. -/
structure OrderItem where
  producto : String
  cantidad : Nat
  precio_unitario : Option ℚ := none
  deriving Repr, DecidableEq

/-- The Order Aggregate: a mapping from normalized product-name key to
`OrderItem`, embedded as an association list (mirrors
`ChatContext.current_order : Dict[str, OrderItem]`). -/
abbrev Order : Type := List (String × OrderItem)

/-- ASCII lower-casing of one character. -/
def lowerChar (c : Char) : Char :=
  if 'A' ≤ c ∧ c ≤ 'Z' then Char.ofNat (c.toNat + 32) else c

/-- Lower-casing of a string (mirrors Python `str.lower` on ASCII text). -/
def lowerStr (s : String) : String := String.mk (s.data.map lowerChar)

/-- Whitespace test used for trimming and tokenizing. -/
def isWs (c : Char) : Bool := c = ' ' || c = '\t' || c = '\n' || c = '\r'

/-- Strip leading and trailing whitespace (mirrors Python `str.strip`). -/
def trimStr (s : String) : String :=
  String.mk (((s.data.dropWhile (fun c => isWs c)).reverse.dropWhile
    (fun c => isWs c)).reverse)

/-- Modelled from the spec: case/whitespace normalization of a product-name
key ("if `name` (case/whitespace-normalized) already exists ..."). -/
def normalizeName (s : String) : String := lowerStr (trimStr s)

/-- First binding of a key in the order, if any. -/
def lookupKey (o : Order) (key : String) : Option OrderItem :=
  match o with
  | [] => none
  | (k, it) :: rest => if k = key then some it else lookupKey rest key

/-- Number of bindings a key has in the order. -/
def countKey (o : Order) (key : String) : Nat :=
  match o with
  | [] => 0
  | (k, _) :: rest => (if k = key then 1 else 0) + countKey rest key

/-- Modelled from the spec: how an existing item absorbs a repeated add —
increment the quantity and, if the existing price is unset and a price is
supplied, set it; never overwrite an already-resolved price. -/
def mergeItem (it : OrderItem) (qty : Nat) (price : Option ℚ) : OrderItem :=
  { it with
    cantidad := it.cantidad + qty
    precio_unitario :=
      match it.precio_unitario with
      | none => price
      | some p => some p }

/-- Recursive worker of `addItem`: update the first binding of `key`, or
append a fresh line when the key is absent. -/
def addItemGo (key : String) (qty : Nat) (price : Option ℚ) :
    List (String × OrderItem) → List (String × OrderItem)
  | [] => [(key, { producto := key, cantidad := qty, precio_unitario := price })]
  | (k, it) :: rest =>
      if k = key then (k, mergeItem it qty price) :: rest
      else (k, it) :: addItemGo key qty price rest

/-- Modelled from the spec: `addItem(name, quantity, unitPrice?)` of the
Order Aggregate (§4.1), absent from `src/`; only the data declaration
`ChatContext.current_order` is present. If the normalized name already has a
binding, merge into the first such binding; otherwise append a fresh line. -/
def addItem (o : Order) (name : String) (qty : Nat) (price : Option ℚ) : Order :=
  addItemGo (normalizeName name) qty price o

theorem lookupKey_go_addItem (key : String) (qty : Nat) (price : Option ℚ)
    (o : List (String × OrderItem)) :
    lookupKey (addItemGo key qty price o) key =
      some (match lookupKey o key with
            | none => { producto := key, cantidad := qty, precio_unitario := price }
            | some it => mergeItem it qty price) := by
  induction o with
  | nil => simp [addItemGo, lookupKey]
  | cons hd tl ih =>
      obtain ⟨k, it⟩ := hd
      by_cases hk : k = key
      · simp [addItemGo, lookupKey, hk]
      · simp [addItemGo, lookupKey, hk, ih]

theorem countKey_go_addItem (key : String) (qty : Nat) (price : Option ℚ)
    (o : List (String × OrderItem)) :
    countKey (addItemGo key qty price o) key =
      max (countKey o key) 1 := by
  induction o with
  | nil => simp [addItemGo, countKey]
  | cons hd tl ih =>
      obtain ⟨k, it⟩ := hd
      by_cases hk : k = key
      · simp [addItemGo, countKey, hk]
      · simp [addItemGo, countKey, hk, ih]

theorem lookupKey_addItem (o : Order) (name : String) (qty : Nat)
    (price : Option ℚ) :
    lookupKey (addItem o name qty price) (normalizeName name) =
      some (match lookupKey o (normalizeName name) with
            | none => { producto := normalizeName name, cantidad := qty,
                        precio_unitario := price }
            | some it => mergeItem it qty price) :=
  lookupKey_go_addItem (normalizeName name) qty price o

theorem countKey_addItem (o : Order) (name : String) (qty : Nat)
    (price : Option ℚ) :
    countKey (addItem o name qty price) (normalizeName name) =
      max (countKey o (normalizeName name)) 1 :=
  countKey_go_addItem (normalizeName name) qty price o

/-- C1 -- Adding the same (normalized) product name twice accumulates into a
single line item: starting from an order with no binding for the key, adding
quantity q1 and then q2 under two names with the same normalization leaves
exactly one binding for that key, and its quantity is q1 + q2. -/
theorem addItem_accumulates (o : Order) (n1 n2 : String) (q1 q2 : Nat)
    (hq1 : 0 < q1) (hq2 : 0 < q2)
    (hnorm : normalizeName n2 = normalizeName n1)
    (hfresh : lookupKey o (normalizeName n1) = none) :
    countKey (addItem (addItem o n1 q1 none) n2 q2 none) (normalizeName n1) = 1 ∧
    ∃ it, lookupKey (addItem (addItem o n1 q1 none) n2 q2 none)
            (normalizeName n1) = some it ∧ it.cantidad = q1 + q2 := by
  have hcnt := countKey_addItem (addItem o n1 q1 none) n2 q2 none
  have hcnt1 := countKey_addItem o n1 q1 none
  have hlk := lookupKey_addItem (addItem o n1 q1 none) n2 q2 none
  have hlk1 := lookupKey_addItem o n1 q1 none
  rw [hnorm] at hcnt hlk
  rw [hfresh] at hlk1
  constructor
  · rw [hcnt, hcnt1]
    have : countKey o (normalizeName n1) = 0 := by
      clear hcnt hcnt1 hlk hlk1
      induction o with
      | nil => simp [countKey]
      | cons hd tl ih =>
          obtain ⟨k, it⟩ := hd
          by_cases hk : k = normalizeName n1
          · rw [lookupKey, if_pos hk] at hfresh; cases hfresh
          · rw [lookupKey, if_neg hk] at hfresh
            simp [countKey, hk, ih hfresh]
    omega
  · refine ⟨_, by rw [hlk, hlk1], ?_⟩
    simp [mergeItem]

/-- C1 witness: `addItem("Pizza", 2)` then `addItem("Pizza", 3)` on an empty
order yields one line item with quantity 5. -/
theorem addItem_accumulates_witness :
    countKey (addItem (addItem [] "Pizza" 2 none) "Pizza" 3 none)
      (normalizeName "Pizza") = 1 ∧
    ∃ it, lookupKey (addItem (addItem [] "Pizza" 2 none) "Pizza" 3 none)
            (normalizeName "Pizza") = some it ∧ it.cantidad = 2 + 3 :=
  addItem_accumulates [] "Pizza" "Pizza" 2 3 (by decide) (by decide) rfl rfl

/-- C2 -- A resolved unit price is never overwritten: if the order already
binds the key to an item with resolved price p, a later `addItem` for the
same name carrying any price still increments the quantity but keeps price p. -/
theorem addItem_price_non_overwrite (o : Order) (n : String) (q : Nat)
    (hq : 0 < q) (p : ℚ) (pr : Option ℚ) (it : OrderItem)
    (hlk : lookupKey o (normalizeName n) = some it)
    (hp : it.precio_unitario = some p) :
    ∃ it2, lookupKey (addItem o n q pr) (normalizeName n) = some it2 ∧
      it2.precio_unitario = some p ∧ it2.cantidad = it.cantidad + q := by
  have h := lookupKey_addItem o n q pr
  rw [hlk] at h
  exact ⟨_, h, by simp [mergeItem, hp], rfl⟩

/-- C2 witness: `addItem("Pizza", 1, 9.0)` then `addItem("Pizza", 1, 99.0)`
keeps price 9.0 and quantity 2. -/
theorem addItem_price_non_overwrite_witness :
    ∃ it2, lookupKey (addItem (addItem [] "Pizza" 1 (some 9)) "Pizza" 1 (some 99))
        (normalizeName "Pizza") = some it2 ∧
      it2.precio_unitario = some 9 ∧ it2.cantidad = 1 + 1 :=
  addItem_price_non_overwrite (addItem [] "Pizza" 1 (some 9)) "Pizza" 1
    (by decide) 9 (some 99)
    { producto := normalizeName "Pizza", cantidad := 1, precio_unitario := some 9 }
    (by rw [lookupKey_addItem]; rfl) rfl

/-! ## Session model: messages, conversation state, extractor, pruning -/

/-- One chat message; mirrors the `{"role": ..., "content": ...}` dict
entries appended by `ChatContext.add_message`. -/
structure Msg where
  role : String
  content : String
  deriving Repr, DecidableEq

/-- A conversation-state value: boolean or text signal. -/
inductive CVal where
  | b (v : Bool)
  | s (v : String)
  deriving Repr, DecidableEq

/-- The Conversation State Store: keys mapped to possibly-null values
(`none` models a Python `None` stored under the key). -/
abbrev ConvState : Type := List (String × Option CVal)

/-- Set (or overwrite) the binding of a key in the store. -/
def setKey (cs : ConvState) (k : String) (v : Option CVal) : ConvState :=
  match cs with
  | [] => [(k, v)]
  | (k0, v0) :: rest =>
      if k0 = k then (k0, v) :: rest else (k0, v0) :: setKey rest k v

/-- The three specialized handlers of the Agent Router. -/
inductive Handler where
  | main
  | products
  | sales
  deriving Repr, DecidableEq

/-- A session: message history, turn counter, active handler, conversation
state and order, per §3 of the spec (the richer variant of `ChatContext`). -/
structure Session where
  uid : String
  messages : List Msg
  turnCount : Nat
  activeHandler : Handler
  conversationState : ConvState
  order : Order

/-! ### Extractor configuration (Modelled from the spec, §4.3) -/

/-- Modelled from the spec: configured product keywords (e.g. "pizza"). -/
def productKeywords : List String := ["pizza"]

/-- Modelled from the spec: the canonical default product name the scan
always uses, regardless of which keyword matched. -/
def canonicalProductName : String := "pizza"

/-- Modelled from the spec: purchase-intent keywords (localized
equivalents of "buy", "want", "need", "looking for"). -/
def purchaseKeywords : List String := ["comprar", "quiero", "necesito", "busco"]

/-- Modelled from the spec: payment-method keywords ("pay", "transfer",
"cash", "card" — localized). -/
def paymentKeywords : List String :=
  ["pagar", "pago", "transferencia", "efectivo", "tarjeta"]

/-- Modelled from the spec: classification of `payment_type` by substring
match, first match wins. -/
def paymentTypeTable : List (String × String) :=
  [("transferencia", "transfer"), ("efectivo", "cash"), ("tarjeta", "card")]

/-- Modelled from the spec: completion phrases ("that's all", "finish"). -/
def completionPhrases : List String := ["eso es todo", "finalizar"]

/-- Modelled from the spec: delivery keywords ("deliver", "address",
"home" — localized). -/
def deliveryKeywords : List String := ["enviar", "direccion", "casa"]

/-- `listPrefixOf p l` : is `p` a prefix of `l`? -/
def listPrefixOf : List Char → List Char → Bool
  | [], _ => true
  | _ :: _, [] => false
  | a :: pa, b :: pb => a = b && listPrefixOf pa pb

/-- `listInfixOf p l` : does `p` occur contiguously inside `l`? -/
def listInfixOf (pat l : List Char) : Bool :=
  match l with
  | [] => pat.isEmpty
  | _ :: rest => listPrefixOf pat l || listInfixOf pat rest

/-- Substring containment (mirrors Python's `in` on strings). -/
def strContains (s pat : String) : Bool := listInfixOf pat.data s.data

/-- Whitespace splitting worker. -/
def splitWsAux (cur : List Char) : List Char → List (List Char)
  | [] => [cur.reverse]
  | c :: rest =>
      if isWs c then cur.reverse :: splitWsAux [] rest
      else splitWsAux (c :: cur) rest

/-- Tokenize the lower-cased text on whitespace, dropping empty tokens
(mirrors Python `text.lower().split()`). -/
def tokensOf (text : String) : List String :=
  ((splitWsAux [] (lowerStr text).data).map String.mk).filter (fun t => t ≠ "")

/-- Numeric value of a decimal digit character. -/
def digitVal (c : Char) : Option Nat :=
  if '0' ≤ c ∧ c ≤ '9' then some (c.toNat - '0'.toNat) else none

/-- Parse a non-empty run of decimal digits. -/
def parseNatAux : List Char → Nat → Option Nat
  | [], acc => some acc
  | c :: rest, acc =>
      match digitVal c with
      | some d => parseNatAux rest (acc * 10 + d)
      | none => none

/-- Parse a token as a positive integer; `none` on empty, non-digit, or
zero-valued tokens. -/
def parsePosNat (s : String) : Option Nat :=
  match s.data with
  | [] => none
  | l => match parseNatAux l 0 with
         | some n => if 0 < n then some n else none
         | none => none

/-- Does a token contain a configured product keyword? -/
def hasProductKeyword (tok : String) : Bool :=
  productKeywords.any (fun kw => strContains tok kw)

/-- Modelled from the spec: the quantity+product scan — return the quantity
of the first token that parses as a positive integer and is immediately
followed by a token containing a product keyword; scanning stops at the
first match. -/
def firstQtyProduct : List String → Option Nat
  | [] => none
  | a :: rest =>
      match rest with
      | [] => none
      | b :: _ =>
          match parsePosNat a with
          | some n =>
              if hasProductKeyword b then some n else firstQtyProduct rest
          | none => firstQtyProduct rest

/-- First matching payment type for the lower-cased sentence, if any. -/
def classifyPayment (t : String) : Option CVal :=
  match paymentTypeTable.find? (fun kv => strContains t kv.1) with
  | some kv => some (.s kv.2)
  | none => none

/-- Modelled from the spec: extraction pass 1 (quantity+product scan); on a
match, `addItem` with the canonical name and unresolved price, mark
`has_items` and nudge routing to `sales` (§4.1 side effects). -/
def pass1 (s : Session) (tokens : List String) : Session :=
  match firstQtyProduct tokens with
  | some n =>
      { s with
        order := addItem s.order canonicalProductName n none
        conversationState := setKey s.conversationState "has_items"
          (some (.b true))
        activeHandler := .sales }
  | none => s

/-- Modelled from the spec: extraction pass 2 (purchase-intent keywords). -/
def pass2 (s : Session) (t : String) : Session :=
  if purchaseKeywords.any (fun kw => strContains t kw) then
    { s with
      conversationState := setKey s.conversationState "intent"
        (some (.s "purchase"))
      activeHandler := .sales }
  else s

/-- Modelled from the spec: extraction pass 3 (payment-method keywords):
store the raw sentence as `payment_method` and classify `payment_type`. -/
def pass3 (s : Session) (t text : String) : Session :=
  if paymentKeywords.any (fun kw => strContains t kw) then
    let cs := setKey s.conversationState "payment_method" (some (.s text))
    { s with
      conversationState :=
        match classifyPayment t with
        | some v => setKey cs "payment_type" (some v)
        | none => cs }
  else s

/-- Modelled from the spec: extraction pass 4 (completion phrases). -/
def pass4 (s : Session) (t : String) : Session :=
  if completionPhrases.any (fun kw => strContains t kw) then
    { s with
      conversationState := setKey s.conversationState "order_complete"
        (some (.b true)) }
  else s

/-- Modelled from the spec: extraction pass 5 (delivery keywords): store
the raw sentence as `delivery_info`. -/
def pass5 (s : Session) (t text : String) : Session :=
  if deliveryKeywords.any (fun kw => strContains t kw) then
    { s with
      conversationState := setKey s.conversationState "delivery_info"
        (some (.s text)) }
  else s

/-- Modelled from the spec: the Intent & Entity Extractor (§4.3), absent
from `src/` — the five deterministic passes over the lower-cased text in
priority order. -/
def extract (s : Session) (text : String) : Session :=
  let t := lowerStr text
  pass5 (pass4 (pass3 (pass2 (pass1 s (tokensOf text)) t) t text) t) t text

/-! ### Pruning (Modelled from the spec, §4.2 and §4.4) -/

/-- The fixed allow-list of conversation-state keys kept by pruning. -/
def allowedKeys : List String :=
  ["intent", "order_complete", "payment_method", "delivery_info", "has_items"]

/-- The configurable pruning threshold for the turn counter (default 15). -/
def pruneThreshold : Nat := 15

/-- The configurable message-history window (default 10). -/
def messageWindow : Nat := 10

/-- Modelled from the spec: reduce the store to the allow-listed keys,
dropping keys whose value is absent/null. -/
def pruneState (cs : ConvState) : ConvState :=
  cs.filter (fun kv => allowedKeys.contains kv.1 && kv.2.isSome)

/-- The most recent `n` elements of a list. -/
def lastN (n : Nat) (l : List Msg) : List Msg := l.drop (l.length - n)

/-- Modelled from the spec: the non-pruning part of `addMessage` (§4.4) —
append the message and, when the role is `user`, increment `turnCount` and
run the Extractor against the content. -/
def prePrune (s : Session) (role content : String) : Session :=
  let s0 := { s with messages := s.messages ++ [{ role := role, content := content }] }
  if role = "user" then
    extract { s0 with turnCount := s0.turnCount + 1 } content
  else s0

/-- Modelled from the spec: `addMessage(role, content)` (§4.4), absent from
`src/` (only the bare appending `ChatContext.add_message` is present) —
after the pre-pruning pipeline, when the turn counter has reached the
threshold, prune the state, reset the counter, and truncate the history. -/
def addMessage (s : Session) (role content : String) : Session :=
  let s1 := prePrune s role content
  if role = "user" ∧ s1.turnCount = pruneThreshold then
    { s1 with
      conversationState := pruneState s1.conversationState
      turnCount := 0
      messages := lastN messageWindow s1.messages }
  else s1

/-! ## Frame lemmas for the extraction passes -/

theorem pass1_frame (s : Session) (ts : List String) :
    (pass1 s ts).messages = s.messages ∧ (pass1 s ts).turnCount = s.turnCount := by
  unfold pass1; split <;> simp

theorem pass2_frame (s : Session) (t : String) :
    (pass2 s t).messages = s.messages ∧ (pass2 s t).turnCount = s.turnCount ∧
    (pass2 s t).order = s.order := by
  unfold pass2; split <;> simp

theorem pass3_frame (s : Session) (t text : String) :
    (pass3 s t text).messages = s.messages ∧
    (pass3 s t text).turnCount = s.turnCount ∧
    (pass3 s t text).order = s.order := by
  unfold pass3; repeat' split <;> simp

theorem pass4_frame (s : Session) (t : String) :
    (pass4 s t).messages = s.messages ∧ (pass4 s t).turnCount = s.turnCount ∧
    (pass4 s t).order = s.order := by
  unfold pass4; split <;> simp

theorem pass5_frame (s : Session) (t text : String) :
    (pass5 s t text).messages = s.messages ∧
    (pass5 s t text).turnCount = s.turnCount ∧
    (pass5 s t text).order = s.order := by
  unfold pass5; split <;> simp

theorem extract_frame (s : Session) (text : String) :
    (extract s text).messages = s.messages ∧
    (extract s text).turnCount = s.turnCount := by
  unfold extract
  obtain ⟨h1m, h1t⟩ := pass1_frame s (tokensOf text)
  obtain ⟨h2m, h2t, _⟩ := pass2_frame (pass1 s (tokensOf text)) (lowerStr text)
  obtain ⟨h3m, h3t, _⟩ := pass3_frame
    (pass2 (pass1 s (tokensOf text)) (lowerStr text)) (lowerStr text) text
  obtain ⟨h4m, h4t, _⟩ := pass4_frame
    (pass3 (pass2 (pass1 s (tokensOf text)) (lowerStr text)) (lowerStr text) text)
    (lowerStr text)
  obtain ⟨h5m, h5t, _⟩ := pass5_frame
    (pass4 (pass3 (pass2 (pass1 s (tokensOf text)) (lowerStr text))
      (lowerStr text) text) (lowerStr text)) (lowerStr text) text
  constructor
  · rw [h5m, h4m, h3m, h2m, h1m]
  · rw [h5t, h4t, h3t, h2t, h1t]

theorem extract_order_eq (s : Session) (text : String) :
    (extract s text).order = (pass1 s (tokensOf text)).order := by
  unfold extract
  obtain ⟨_, _, h2⟩ := pass2_frame (pass1 s (tokensOf text)) (lowerStr text)
  obtain ⟨_, _, h3⟩ := pass3_frame
    (pass2 (pass1 s (tokensOf text)) (lowerStr text)) (lowerStr text) text
  obtain ⟨_, _, h4⟩ := pass4_frame
    (pass3 (pass2 (pass1 s (tokensOf text)) (lowerStr text)) (lowerStr text) text)
    (lowerStr text)
  obtain ⟨_, _, h5⟩ := pass5_frame
    (pass4 (pass3 (pass2 (pass1 s (tokensOf text)) (lowerStr text))
      (lowerStr text) text) (lowerStr text)) (lowerStr text) text
  rw [h5, h4, h3, h2]

theorem prePrune_user (s : Session) (c : String) :
    (prePrune s "user" c).messages =
      s.messages ++ [{ role := "user", content := c }] ∧
    (prePrune s "user" c).turnCount = s.turnCount + 1 := by
  unfold prePrune
  simp only [if_pos rfl]
  obtain ⟨hm, ht⟩ := extract_frame
    { s with messages := s.messages ++ [{ role := "user", content := c }],
             turnCount := s.turnCount + 1 } c
  exact ⟨hm, ht⟩

/-- C3 -- When a user message drives the turn counter to the threshold,
`addMessage` prunes: the counter resets to 0, the conversation state becomes
exactly the allow-listed, non-null bindings of the pre-pruning state, and
the history is truncated to the most recent `messageWindow` messages. -/
theorem addMessage_prune_invariant (s : Session) (c : String)
    (h : s.turnCount + 1 = pruneThreshold) :
    (addMessage s "user" c).turnCount = 0 ∧
    (addMessage s "user" c).conversationState =
      pruneState (prePrune s "user" c).conversationState ∧
    (∀ k v, (k, v) ∈ (addMessage s "user" c).conversationState ↔
      ((k, v) ∈ (prePrune s "user" c).conversationState ∧
        k ∈ allowedKeys ∧ v ≠ none)) ∧
    (addMessage s "user" c).messages =
      lastN messageWindow (s.messages ++ [{ role := "user", content := c }]) ∧
    (addMessage s "user" c).messages.length ≤ messageWindow := by
  obtain ⟨hm, ht⟩ := prePrune_user s c
  have hcond : ("user" = "user" ∧ (prePrune s "user" c).turnCount = pruneThreshold) := by
    exact ⟨rfl, by rw [ht]; exact h⟩
  have hadd : addMessage s "user" c =
      { prePrune s "user" c with
        conversationState := pruneState (prePrune s "user" c).conversationState
        turnCount := 0
        messages := lastN messageWindow (prePrune s "user" c).messages } := by
    unfold addMessage
    rw [if_pos hcond]
  refine ⟨by rw [hadd], by rw [hadd], ?_, ?_, ?_⟩
  · intro k v
    rw [hadd]
    show (k, v) ∈ pruneState (prePrune s "user" c).conversationState ↔ _
    unfold pruneState
    rw [List.mem_filter]
    simp [Option.isSome_iff_ne_none, allowedKeys]
  · rw [hadd, hm]
  · rw [hadd]
    show (lastN messageWindow (prePrune s "user" c).messages).length ≤ _
    unfold lastN
    rw [List.length_drop]
    omega

/-- A session one turn away from the pruning threshold, holding allow-listed,
foreign, and null-valued state entries. -/
def nearThresholdSession : Session :=
  { uid := "s1"
    messages := List.replicate 14 { role := "user", content := "hola" }
    turnCount := 14
    activeHandler := .main
    conversationState :=
      [("intent", some (.s "purchase")), ("scratch", some (.s "x")),
       ("delivery_info", none)]
    order := [] }

/-- C3 witness: the pruning theorem applied to a concrete session with 14
prior turns. -/
theorem addMessage_prune_invariant_witness :
    nearThresholdSession.turnCount + 1 = pruneThreshold ∧
    ((addMessage nearThresholdSession "user" "listo").turnCount = 0 ∧
    (addMessage nearThresholdSession "user" "listo").conversationState =
      pruneState (prePrune nearThresholdSession "user" "listo").conversationState ∧
    (∀ k v, (k, v) ∈ (addMessage nearThresholdSession "user" "listo").conversationState ↔
      ((k, v) ∈ (prePrune nearThresholdSession "user" "listo").conversationState ∧
        k ∈ allowedKeys ∧ v ≠ none)) ∧
    (addMessage nearThresholdSession "user" "listo").messages =
      lastN messageWindow (nearThresholdSession.messages ++
        [{ role := "user", content := "listo" }]) ∧
    (addMessage nearThresholdSession "user" "listo").messages.length ≤ messageWindow) :=
  ⟨by decide, addMessage_prune_invariant nearThresholdSession "listo" (by decide)⟩

/-! ## C4: the quantity+product scan -/

/-- The scan predicate: position `i` of the token list holds a token parsing
as the positive integer `n`, immediately followed by a token containing a
product keyword. -/
def matchAt (ts : List String) (i n : Nat) : Prop :=
  i + 1 < ts.length ∧ parsePosNat (ts.getD i "") = some n ∧
    hasProductKeyword (ts.getD (i + 1) "") = true

theorem matchAt_shift (a : String) (ts : List String) (i n : Nat) :
    matchAt (a :: ts) (i + 1) n ↔ matchAt ts i n := by
  unfold matchAt
  rw [List.getD_cons_succ, List.getD_cons_succ, List.length_cons]
  constructor <;> rintro ⟨h1, h2, h3⟩ <;> exact ⟨by omega, h2, h3⟩

theorem firstQtyProduct_finds_first (ts : List String) (n : Nat)
    (h : firstQtyProduct ts = some n) :
    ∃ i, matchAt ts i n ∧ ∀ j, j < i → ∀ m, ¬ matchAt ts j m := by
  induction ts with
  | nil => cases h
  | cons a rest ih =>
      cases rest with
      | nil => cases h
      | cons b rest2 =>
          rw [firstQtyProduct] at h
          cases hp : parsePosNat a with
          | some q =>
              rw [hp] at h
              dsimp only at h
              by_cases hk : hasProductKeyword b = true
              · rw [if_pos hk] at h
                cases h
                refine ⟨0, ⟨by simp, ?_, ?_⟩, by omega⟩
                · rw [List.getD_cons_zero]; exact hp
                · rw [List.getD_cons_succ, List.getD_cons_zero]; exact hk
              · rw [if_neg hk] at h
                obtain ⟨i, hi, hmin⟩ := ih h
                refine ⟨i + 1, (matchAt_shift a (b :: rest2) i n).mpr hi, ?_⟩
                intro j hj m hm
                cases j with
                | zero =>
                    obtain ⟨_, _, hkey⟩ := hm
                    rw [List.getD_cons_succ, List.getD_cons_zero] at hkey
                    exact hk hkey
                | succ j2 =>
                    exact hmin j2 (by omega) m
                      ((matchAt_shift a (b :: rest2) j2 m).mp hm)
          | none =>
              rw [hp] at h
              dsimp only at h
              obtain ⟨i, hi, hmin⟩ := ih h
              refine ⟨i + 1, (matchAt_shift a (b :: rest2) i n).mpr hi, ?_⟩
              intro j hj m hm
              cases j with
              | zero =>
                  obtain ⟨_, hparse, _⟩ := hm
                  rw [List.getD_cons_zero] at hparse
                  rw [hp] at hparse
                  cases hparse
              | succ j2 =>
                  exact hmin j2 (by omega) m
                    ((matchAt_shift a (b :: rest2) j2 m).mp hm)

/-- C4 -- When the tokenized lower-cased message has a first
quantity+keyword match with quantity `n`, the extraction pass performs
exactly one `addItem` with the canonical product name, quantity `n` and
unresolved price, and the match found is the first one in the token list. -/
theorem extract_single_scan (s : Session) (text : String) (n : Nat)
    (h : firstQtyProduct (tokensOf text) = some n) :
    (extract s text).order = addItem s.order canonicalProductName n none ∧
    ∃ i, matchAt (tokensOf text) i n ∧
      ∀ j, j < i → ∀ m, ¬ matchAt (tokensOf text) j m := by
  constructor
  · rw [extract_order_eq]
    unfold pass1
    rw [h]
  · exact firstQtyProduct_finds_first _ n h

/-- A fresh session, as created on the first inbound message. -/
def freshSession : Session :=
  { uid := "w", messages := [], turnCount := 0, activeHandler := .main,
    conversationState := [], order := [] }

/-- C4 witness: on `"quiero 2 pizzas"` the scan matches quantity 2, the
order holds pizza with quantity 2 and unresolved price, intent is purchase
and the active handler is sales. -/
theorem extract_single_scan_witness :
    firstQtyProduct (tokensOf "quiero 2 pizzas") = some 2 ∧
    ((extract freshSession "quiero 2 pizzas").order =
        addItem freshSession.order canonicalProductName 2 none ∧
      ∃ i, matchAt (tokensOf "quiero 2 pizzas") i 2 ∧
        ∀ j, j < i → ∀ m, ¬ matchAt (tokensOf "quiero 2 pizzas") j m) ∧
    lookupKey (extract freshSession "quiero 2 pizzas").order "pizza" =
      some { producto := "pizza", cantidad := 2, precio_unitario := none } ∧
    ("intent", some (CVal.s "purchase")) ∈
      (extract freshSession "quiero 2 pizzas").conversationState ∧
    (extract freshSession "quiero 2 pizzas").activeHandler = .sales :=
  ⟨by decide, extract_single_scan freshSession "quiero 2 pizzas" 2 (by decide),
    by decide, by decide, by decide⟩

/-! ## C5: hand-off payload snapshot isolation

Python dictionaries are heap objects addressed by reference, so aliasing is
made explicit: a small heap of order values, with references as indices. -/

/-- A heap of order values; a reference is an index into `cells`. -/
structure Heap where
  cells : List Order

/-- Dereference (a dangling reference reads as an empty order). -/
def Heap.read (h : Heap) (r : Nat) : Order := h.cells.getD r []

/-- Overwrite the cell a reference points to. -/
def Heap.write (h : Heap) (r : Nat) (o : Order) : Heap :=
  ⟨h.cells.set r o⟩

/-- Allocate a fresh cell holding `o`; returns the new heap and reference. -/
def Heap.alloc (h : Heap) (o : Order) : Heap × Nat :=
  (⟨h.cells ++ [o]⟩, h.cells.length)

/-- The hand-off payload, from `HandoffData` in `src/src/agents/agents.py`:
prompt text, optional context data (here the reference to the captured order
snapshot), optional target-agent name. -/
structure HandoffData where
  prompt : String
  context_data : Option Nat := none
  to_agent : Option String := none

/-- Modelled from the spec: constructing a hand-off payload takes an
immutable snapshot of the sender's order into the payload — a value copy
placed in a freshly allocated cell, never a live reference (§4.5.1). -/
def mkHandoffPayload (h : Heap) (senderOrder : Nat) (prompt : String)
    (target : Option String) : Heap × HandoffData :=
  let ar := h.alloc (h.read senderOrder)
  (ar.1, { prompt := prompt, context_data := some ar.2, to_agent := target })

/-- Mutate the sender's order in place: `addItem` through its reference. -/
def addItemRef (h : Heap) (r : Nat) (name : String) (qty : Nat)
    (price : Option ℚ) : Heap :=
  h.write r (addItem (h.read r) name qty price)

theorem getD_append_singleton (l : List Order) (o : Order) :
    (l ++ [o]).getD l.length [] = o := by
  induction l with
  | nil => rfl
  | cons a t ih => simp

theorem getD_set_ne (l : List Order) (i j : Nat) (o : Order) (hij : i ≠ j) :
    (l.set i o).getD j [] = l.getD j [] := by
  induction l generalizing i j with
  | nil => rfl
  | cons a t ih =>
      cases i with
      | zero =>
          cases j with
          | zero => exact absurd rfl hij
          | succ j2 => simp [List.set]
      | succ i2 =>
          cases j with
          | zero => simp [List.set]
          | succ j2 =>
              show (a :: t.set i2 o).getD (j2 + 1) [] = (a :: t).getD (j2 + 1) []
              rw [List.getD_cons_succ, List.getD_cons_succ]
              exact ih i2 j2 (by omega)

/-- C5 -- The payload's order snapshot is isolated from the sender: the
payload captures the sender's order value at hand-off time in a fresh cell,
and neither an `addItem` on the sender's order nor any other overwrite of
the sender's cell changes what the snapshot reference reads. -/
theorem handoff_snapshot_isolated (h : Heap) (r : Nat)
    (hr : r < h.cells.length) (prompt : String) (tgt : Option String) :
    (mkHandoffPayload h r prompt tgt).2.context_data = some h.cells.length ∧
    Heap.read (mkHandoffPayload h r prompt tgt).1 h.cells.length = Heap.read h r ∧
    (∀ name qty price,
      Heap.read (addItemRef (mkHandoffPayload h r prompt tgt).1 r name qty price)
        h.cells.length = Heap.read h r) ∧
    (∀ o2, Heap.read (Heap.write (mkHandoffPayload h r prompt tgt).1 r o2)
        h.cells.length = Heap.read h r) := by
  have hfresh : ∀ o2,
      Heap.read (Heap.write (mkHandoffPayload h r prompt tgt).1 r o2)
        h.cells.length = Heap.read h r := by
    intro o2
    show (((h.cells ++ [h.read r]).set r o2).getD h.cells.length []) = _
    rw [getD_set_ne _ _ _ _ (by omega)]
    exact getD_append_singleton _ _
  refine ⟨rfl, ?_, fun name qty price => hfresh _, hfresh⟩
  exact getD_append_singleton _ _

/-- A concrete order for the C5 witness: one unpriced pizza line. -/
def wOrder : Order :=
  [("pizza", { producto := "pizza", cantidad := 1, precio_unitario := none })]

/-- A one-cell heap holding the C5 witness order as the sender's order. -/
def wHeap : Heap := { cells := [wOrder] }

/-- C5 witness: the isolation theorem at a concrete one-session heap whose
sender order holds an unpriced pizza; the snapshot reference is 1 and stays
equal to the order at hand-off time under any later sender mutation. -/
theorem handoff_snapshot_isolated_witness :
    (0 : Nat) < wHeap.cells.length ∧
    ((mkHandoffPayload wHeap 0 "ayuda" (some "Product Agent")).2.context_data =
        some wHeap.cells.length ∧
      Heap.read (mkHandoffPayload wHeap 0 "ayuda" (some "Product Agent")).1
        wHeap.cells.length = Heap.read wHeap 0 ∧
      (∀ name qty price,
        Heap.read (addItemRef (mkHandoffPayload wHeap 0 "ayuda"
            (some "Product Agent")).1 0 name qty price) wHeap.cells.length =
          Heap.read wHeap 0) ∧
      (∀ o2, Heap.read (Heap.write (mkHandoffPayload wHeap 0 "ayuda"
          (some "Product Agent")).1 0 o2) wHeap.cells.length =
        Heap.read wHeap 0)) :=
  ⟨by decide, handoff_snapshot_isolated wHeap 0 (by decide) "ayuda"
    (some "Product Agent")⟩

/-! ## C6: default-price backfill after a sales → products hand-off -/

/-- Modelled from the spec: the documented default fallback unit price,
10.00 currency units. -/
def fallbackUnitPrice : ℚ := 10

/-- Modelled from the spec: the default-price backfill — every order line
with an unresolved price is set to the fallback unit price; resolved prices
are untouched. -/
def backfillOrder (o : Order) : Order :=
  o.map (fun kv =>
    (kv.1,
      { kv.2 with
        precio_unitario :=
          match kv.2.precio_unitario with
          | none => some fallbackUnitPrice
          | some p => some p }))

/-- Modelled from the spec: the router's step after a hand-off target
returns (§4.5.2): when the target is `products` and the sender is `sales`,
apply the backfill and set the active handler back to `sales`. -/
def afterHandoff (sender target : Handler) (s : Session) : Session :=
  if target = .products ∧ sender = .sales then
    { s with order := backfillOrder s.order, activeHandler := .sales }
  else s

/-- C6 -- After a hand-off with sender `sales` and target `products`
returns: no order line is left with an unresolved price; a line that was
unpriced now carries the fallback unit price 10.00; a line that was priced
is unchanged; and the active handler is `sales`. -/
theorem afterHandoff_backfills (s : Session) (sender target : Handler)
    (hs : sender = .sales) (ht : target = .products) :
    (∀ kv, kv ∈ (afterHandoff sender target s).order →
      kv.2.precio_unitario ≠ none) ∧
    (∀ k it, (k, it) ∈ s.order → it.precio_unitario = none →
      (k, { it with precio_unitario := some fallbackUnitPrice }) ∈
        (afterHandoff sender target s).order) ∧
    (∀ k it p, (k, it) ∈ s.order → it.precio_unitario = some p →
      (k, it) ∈ (afterHandoff sender target s).order) ∧
    (afterHandoff sender target s).activeHandler = .sales := by
  subst hs ht
  have hres : afterHandoff .sales .products s =
      { s with order := backfillOrder s.order, activeHandler := .sales } := by
    unfold afterHandoff
    rw [if_pos ⟨rfl, rfl⟩]
  rw [hres]
  refine ⟨?_, ?_, ?_, rfl⟩
  · rintro ⟨k, it⟩ hkv
    unfold backfillOrder at hkv
    rw [List.mem_map] at hkv
    obtain ⟨⟨k0, it0⟩, _, heq⟩ := hkv
    cases heq
    cases h0 : it0.precio_unitario <;> simp [h0]
  · intro k it hmem hnone
    unfold backfillOrder
    rw [List.mem_map]
    exact ⟨(k, it), hmem, by simp [hnone]⟩
  · intro k it p hmem hp
    unfold backfillOrder
    rw [List.mem_map]
    refine ⟨(k, it), hmem, ?_⟩
    obtain ⟨pr, ca, pu⟩ := it
    cases hp
    rfl

/-- A concrete two-line order for the C6 witness: an unpriced pizza line
and a priced drink line. -/
def mixedOrder : Order :=
  [("pizza", { producto := "pizza", cantidad := 2, precio_unitario := none }),
   ("gaseosa", { producto := "gaseosa", cantidad := 1,
                 precio_unitario := some 3 })]

/-- A session holding the mixed order, for the C6 witness. -/
def mixedSession : Session := { freshSession with order := mixedOrder }

/-- C6 witness: after the hand-off returns, no line of the mixed order is
unpriced, the pizza line carries the fallback price, the drink line is
untouched, and the active handler is sales. -/
theorem afterHandoff_backfills_witness :
    (Handler.sales = Handler.sales) ∧
    ((∀ kv, kv ∈ (afterHandoff .sales .products mixedSession).order →
        kv.2.precio_unitario ≠ none) ∧
      (∀ k it, (k, it) ∈ mixedSession.order → it.precio_unitario = none →
        (k, { it with precio_unitario := some fallbackUnitPrice }) ∈
          (afterHandoff .sales .products mixedSession).order) ∧
      (∀ k it p, (k, it) ∈ mixedSession.order →
        it.precio_unitario = some p →
        (k, it) ∈ (afterHandoff .sales .products mixedSession).order) ∧
      (afterHandoff .sales .products mixedSession).activeHandler = .sales) :=
  ⟨rfl, afterHandoff_backfills mixedSession .sales .products rfl rfl⟩

/-! ## C7 and C10: the `Agents.run` turn loop (`src/src/agents/agents.py`) -/

/-- Shorthand for the `{"role": "user", ...}` entry `run` appends. -/
def userMsg (t : String) : Msg := { role := "user", content := t }

/-- Shorthand for the `{"role": "assistant", ...}` entry `run` appends. -/
def assistantMsg (t : String) : Msg := { role := "assistant", content := t }

/-- The `ChatContext` dataclass of `src/src/agents/agents.py`: a uid, the
message list, and the current order keyed by product name. -/
structure ChatContext where
  uid : String
  messages : List Msg
  current_order : Order

/-- `ChatContext.add_message`: append one role/content entry. -/
def ChatContext.add_message (c : ChatContext) (role content : String) :
    ChatContext :=
  { c with messages := c.messages ++ [{ role := role, content := content }] }

/-- `ChatContext.get_messages`: return the message list. -/
def ChatContext.get_messages (c : ChatContext) : List Msg := c.messages

/-- The duck-typed context `Agents.run` accepts: a plain dict with a
`"messages"` key, or a `ChatContext` object (the source dispatches on
`hasattr(context, "add_message")`). -/
inductive Ctx where
  | dict (msgs : List Msg)
  | chat (c : ChatContext)

/-- The message list of either context representation. -/
def Ctx.messages : Ctx → List Msg
  | .dict m => m
  | .chat c => c.messages

/-- The input payload passed to the Reasoner (`Runner.run`): the raw latest
user text on the first turn; otherwise the message history — wrapped in a
`{"messages": ...}` dict for dict contexts, bare for `ChatContext`. -/
inductive RunInput where
  | rawText (t : String)
  | wrappedHistory (msgs : List Msg)
  | history (msgs : List Msg)
  deriving Repr, DecidableEq

/-- The context after `Agents.run` has appended the inbound user message
(the first half of the turn). -/
def appendUser (context : Option Ctx) (text : String) : Ctx :=
  match context with
  | none => .dict [userMsg text]
  | some (.dict m) => .dict (m ++ [userMsg text])
  | some (.chat c) => .chat (c.add_message "user" text)

/-- The input `Agents.run` passes to `Runner.run`, from the
`message_count == 1` branch of the source: raw text on the first turn,
else the (possibly dict-wrapped) full history. -/
def agentsRunInput (context : Option Ctx) (text : String) : RunInput :=
  if (appendUser context text).messages.length = 1 then .rawText text
  else
    match appendUser context text with
    | .dict m => .wrappedHistory m
    | .chat c => .history c.get_messages

/-- `Agents.run`, embedded: append the user message, invoke the Reasoner on
the selected input, append the assistant response, return the response and
the final context. The Reasoner (`Runner.run`) is an oracle parameter. -/
def agentsRun (reasoner : RunInput → String) (text : String)
    (context : Option Ctx) : String × Ctx :=
  let ctx1 := appendUser context text
  let response := reasoner (agentsRunInput context text)
  let ctx2 :=
    match ctx1 with
    | .dict m => Ctx.dict (m ++ [assistantMsg response])
    | .chat c => Ctx.chat (c.add_message "assistant" response)
  (response, ctx2)

/-- C7 -- Reasoner input selection: when the message count after appending
the inbound user message is 1 (first turn) the Reasoner receives the raw
user text; on every other turn it receives the full ordered message history
of the session (dict-wrapped for dict contexts, bare for `ChatContext`). -/
theorem run_input_selection (ctx : Ctx) (text : String) :
    ((ctx.messages ++ [userMsg text]).length = 1 →
      agentsRunInput (some ctx) text = .rawText text) ∧
    ((ctx.messages ++ [userMsg text]).length ≠ 1 →
      (∀ m, ctx = .dict m →
        agentsRunInput (some ctx) text =
          .wrappedHistory (m ++ [userMsg text])) ∧
      (∀ c, ctx = .chat c →
        agentsRunInput (some ctx) text =
          .history (c.messages ++ [userMsg text]))) := by
  have hmsgs : (appendUser (some ctx) text).messages =
      ctx.messages ++ [userMsg text] := by
    cases ctx <;> rfl
  constructor
  · intro h1
    unfold agentsRunInput
    rw [hmsgs, if_pos h1]
  · intro hne
    constructor
    · rintro m rfl
      unfold agentsRunInput
      rw [hmsgs, if_neg hne]
      rfl
    · rintro c rfl
      unfold agentsRunInput
      rw [hmsgs, if_neg hne]
      rfl

/-- A `ChatContext` that already holds one completed turn, for the C7
witness. -/
def chatW : ChatContext :=
  { uid := "c1"
    messages := [userMsg "hola", assistantMsg "¡Hola! ¿Qué deseas ordenar?"]
    current_order := [] }

/-- C7 witness: a first turn on an empty dict context receives the raw
text; a third message on a two-message `ChatContext` receives the full
history. -/
theorem run_input_selection_witness :
    (((Ctx.dict []).messages ++ [userMsg "hola"]).length = 1 ∧
      agentsRunInput (some (.dict [])) "hola" = .rawText "hola") ∧
    (((Ctx.chat chatW).messages ++ [userMsg "quiero pagar"]).length ≠ 1 ∧
      agentsRunInput (some (.chat chatW)) "quiero pagar" =
        .history (chatW.messages ++ [userMsg "quiero pagar"])) :=
  ⟨⟨by decide, (run_input_selection (.dict []) "hola").1 (by decide)⟩,
   ⟨by decide,
    ((run_input_selection (.chat chatW) "quiero pagar").2 (by decide)).2
      chatW rfl⟩⟩

/-- C10 -- A normally returning `Agents.run` call appends exactly the
inbound user entry and then the assistant entry carrying the Reasoner's
response, preserving every previously stored message, for both context
representations; the response returned is the Reasoner's output on the
input selected after the user message was appended. -/
theorem run_appends_two_messages (reasoner : RunInput → String) (ctx : Ctx)
    (text : String) :
    (agentsRun reasoner text (some ctx)).2.messages =
      ctx.messages ++
        [userMsg text,
         assistantMsg (reasoner (agentsRunInput (some ctx) text))] ∧
    (agentsRun reasoner text (some ctx)).1 =
      reasoner (agentsRunInput (some ctx) text) ∧
    ctx.messages <+: (agentsRun reasoner text (some ctx)).2.messages := by
  have key : (agentsRun reasoner text (some ctx)).2.messages =
      ctx.messages ++
        [userMsg text,
         assistantMsg (reasoner (agentsRunInput (some ctx) text))] := by
    cases ctx <;>
      simp [agentsRun, appendUser, Ctx.messages, ChatContext.add_message,
        userMsg, assistantMsg]
  refine ⟨key, by cases ctx <;> rfl, ?_⟩
  rw [key]
  exact ⟨_, rfl⟩

/-- C10 witness: the theorem applied to a constant Reasoner on both a dict
context holding one prior message and the two-message `ChatContext`. -/
theorem run_appends_two_messages_witness :
    ((agentsRun (fun _ => "claro") "algo mas" (some (.dict [userMsg "hola"]))).2.messages =
      (Ctx.dict [userMsg "hola"]).messages ++
        [userMsg "algo mas",
         assistantMsg ((fun _ : RunInput => "claro")
           (agentsRunInput (some (.dict [userMsg "hola"])) "algo mas"))] ∧
      (agentsRun (fun _ => "claro") "algo mas" (some (.dict [userMsg "hola"]))).1 =
        (fun _ : RunInput => "claro")
          (agentsRunInput (some (.dict [userMsg "hola"])) "algo mas") ∧
      (Ctx.dict [userMsg "hola"]).messages <+:
        (agentsRun (fun _ => "claro") "algo mas"
          (some (.dict [userMsg "hola"]))).2.messages) ∧
    ((agentsRun (fun _ => "claro") "quiero pagar" (some (.chat chatW))).2.messages =
      (Ctx.chat chatW).messages ++
        [userMsg "quiero pagar",
         assistantMsg ((fun _ : RunInput => "claro")
           (agentsRunInput (some (.chat chatW)) "quiero pagar"))] ∧
      (agentsRun (fun _ => "claro") "quiero pagar" (some (.chat chatW))).1 =
        (fun _ : RunInput => "claro")
          (agentsRunInput (some (.chat chatW)) "quiero pagar") ∧
      (Ctx.chat chatW).messages <+:
        (agentsRun (fun _ => "claro") "quiero pagar"
          (some (.chat chatW))).2.messages) :=
  ⟨run_appends_two_messages (fun _ => "claro") (.dict [userMsg "hola"]) "algo mas",
   run_appends_two_messages (fun _ => "claro") (.chat chatW) "quiero pagar"⟩

/-! ## C8: resilient backend-client initialization
(`src/src/db/supabase_client.py`) -/

/-- `MAX_RETRIES` from `src/src/db/supabase_client.py`. -/
def MAX_RETRIES : Nat := 3

/-- The `while retry_count < MAX_RETRIES` loop of
`initialize_supabase_client`, embedded: `fails k` is the outcome of the
k-th `create_client` + probe attempt (`none` = success, `some e` = the
exception raised). Returns the final outcome (`.ok` a client, `.error` the
re-raised `last_error`), the number of attempts made, and the list of sleep
durations in seconds (`2 ** retry_count` after each failed attempt). -/
def initLoop (fails : Nat → Option String) (retry_count : Nat)
    (last_error : Option String) :
    Except (Option String) Unit × Nat × List Nat :=
  if h : retry_count < MAX_RETRIES then
    match fails retry_count with
    | none => (.ok (), 1, [])
    | some e =>
        ((initLoop fails (retry_count + 1) (some e)).1,
         (initLoop fails (retry_count + 1) (some e)).2.1 + 1,
         2 ^ (retry_count + 1) :: (initLoop fails (retry_count + 1) (some e)).2.2)
  else (.error last_error, 0, [])
  termination_by MAX_RETRIES - retry_count
  decreasing_by all_goals omega

/-- `initialize_supabase_client` (given credentials present): run the retry
loop from `retry_count = 0` with no `last_error`. -/
def initialize_supabase_client (fails : Nat → Option String) :
    Except (Option String) Unit × Nat × List Nat :=
  initLoop fails 0 none

theorem initLoop_attempts_le (fails : Nat → Option String) :
    ∀ n rc le, MAX_RETRIES - rc ≤ n → (initLoop fails rc le).2.1 ≤ n := by
  intro n
  induction n with
  | zero =>
      intro rc le h
      rw [initLoop]
      rw [dif_neg (by omega)]
  | succ n ih =>
      intro rc le h
      rw [initLoop]
      by_cases hrc : rc < MAX_RETRIES
      · rw [dif_pos hrc]
        cases hf : fails rc with
        | none =>
            dsimp only
            omega
        | some e =>
            dsimp only
            have := ih (rc + 1) (some e) (by omega)
            omega
      · rw [dif_neg hrc]
        dsimp only
        omega

/-- C8 -- Initialization retry policy: at most `MAX_RETRIES` attempts are
ever made; and when every attempt fails, the loop makes exactly 3 attempts,
sleeps 2, 4 and 8 seconds after them (total at least 2+4+8), and re-raises
the last error instead of returning a degraded client. -/
theorem init_retry_policy (fails : Nat → Option String)
    (hall : ∀ k, fails k ≠ none) :
    (∀ g : Nat → Option String,
      (initialize_supabase_client g).2.1 ≤ MAX_RETRIES) ∧
    (initialize_supabase_client fails).2.1 = 3 ∧
    (initialize_supabase_client fails).2.2 = [2, 4, 8] ∧
    8 + 4 + 2 ≤ (initialize_supabase_client fails).2.2.sum ∧
    ∃ e, (initialize_supabase_client fails).1 = .error (some e) := by
  obtain ⟨e0, h0⟩ := Option.ne_none_iff_exists'.mp (hall 0)
  obtain ⟨e1, h1⟩ := Option.ne_none_iff_exists'.mp (hall 1)
  obtain ⟨e2, h2⟩ := Option.ne_none_iff_exists'.mp (hall 2)
  have step3 : ∀ le, initLoop fails 3 le = (.error le, 0, []) := by
    intro le
    rw [initLoop]
    rw [dif_neg (by unfold MAX_RETRIES; omega)]
  have step2 : ∀ le, initLoop fails 2 le = (.error (some e2), 1, [8]) := by
    intro le
    rw [initLoop]
    rw [dif_pos (by unfold MAX_RETRIES; omega), h2]
    dsimp only
    rw [step3 (some e2)]
    rfl
  have step1 : ∀ le, initLoop fails 1 le = (.error (some e2), 2, [4, 8]) := by
    intro le
    rw [initLoop]
    rw [dif_pos (by unfold MAX_RETRIES; omega), h1]
    dsimp only
    rw [step2 (some e1)]
    rfl
  have step0 : initLoop fails 0 none = (.error (some e2), 3, [2, 4, 8]) := by
    rw [initLoop]
    rw [dif_pos (by unfold MAX_RETRIES; omega), h0]
    dsimp only
    rw [step1 (some e0)]
    rfl
  refine ⟨fun g => initLoop_attempts_le g MAX_RETRIES 0 none (by omega), ?_, ?_, ?_, ?_⟩
  · show (initLoop fails 0 none).2.1 = 3
    rw [step0]
  · show (initLoop fails 0 none).2.2 = [2, 4, 8]
    rw [step0]
  · show 8 + 4 + 2 ≤ (initLoop fails 0 none).2.2.sum
    rw [step0]
    simp
  · exact ⟨e2, by show (initLoop fails 0 none).1 = _; rw [step0]⟩

/-- C8 witness: the policy at the concrete always-failing outcome map
(an unreachable endpoint raising "connection refused" each time). -/
theorem init_retry_policy_witness :
    ((fun _ : Nat => some "connection refused") 0 ≠ none) ∧
    ((∀ g : Nat → Option String,
        (initialize_supabase_client g).2.1 ≤ MAX_RETRIES) ∧
      (initialize_supabase_client (fun _ => some "connection refused")).2.1 = 3 ∧
      (initialize_supabase_client (fun _ => some "connection refused")).2.2 =
        [2, 4, 8] ∧
      8 + 4 + 2 ≤
        (initialize_supabase_client (fun _ => some "connection refused")).2.2.sum ∧
      ∃ e, (initialize_supabase_client (fun _ => some "connection refused")).1 =
        .error (some e)) :=
  ⟨by decide,
    init_retry_policy (fun _ => some "connection refused")
      (fun k => by simp)⟩

/-! ## C9: collaborator failures surface as text, not exceptions
(`src/src/db/database.py` `get_products`, `src/src/payments/mp.py`
`create_mercadopago_link`) -/

/-- A product row of the `productos` table as read by `get_products`. -/
structure DbProduct where
  id : String
  nombre : String
  marca : String
  precio : ℚ
  created_at : String
  updated_at : String

/-- The success-path rendering `str([{"name": ..., "brand": ..., "price":
..., "id": ...} for p in products])` of `get_products`. -/
def formatProducts (l : List DbProduct) : String :=
  "[" ++ String.intercalate ", " (l.map (fun p =>
    "\x7b'name': '" ++ p.nombre ++ "', 'brand': '" ++ p.marca ++
      "', 'price': " ++ toString p.precio ++ ", 'id': '" ++ p.id ++
      "'\x7d")) ++ "]"

/-- `get_products`, embedded: `dbQuery` is the outcome of
`supabase.table("productos").select("*").execute()` (`.error` = exception
raised). The whole body is wrapped in try/except: the except branch returns
the error text; `.error` in the result type would mean an uncaught
exception escaping to the caller. -/
def get_products (dbQuery : Except String (List DbProduct)) :
    Except String String :=
  match dbQuery with
  | .error e => .ok ("Error getting products: " ++ e)
  | .ok data =>
      if data.isEmpty then .ok "[]"
      else .ok (formatProducts data)

/-- The environment `create_mercadopago_link` reads: `MP_ACCESS_TOKEN` and
`MP_DEV_MODE`. -/
structure MpEnv where
  mp_token : Option String
  dev_mode : Bool

/-- Outcome of the MercadoPago SDK preference-creation call: a created
preference with its `init_point` link, a non-201 status, or a raised
exception. -/
inductive SdkOutcome where
  | created (initPoint : String)
  | badStatus (status : Nat)
  | raised (msg : String)

/-- `create_mercadopago_link`, embedded: `orderId` stands for the
`int(datetime.now().timestamp())` order id; the preference payload built
from amount/title/description is absorbed into the SDK outcome parameter.
Every branch — missing token, dev mode, non-201 status, raised exception —
returns a link string; `.error` would mean an exception escaping. -/
def create_mercadopago_link (env : MpEnv) (sdk : SdkOutcome) (orderId : Nat) :
    Except String String :=
  match env.mp_token with
  | none => .ok "https://link.mercadopago.com/error-no-token"
  | some _ =>
      if env.dev_mode then
        .ok ("https://link.mercadopago.com/test-payment-" ++ toString orderId)
      else
        match sdk with
        | .created link => .ok link
        | .badStatus _ =>
            .ok ("https://link.mercadopago.com/error-" ++ toString orderId)
        | .raised _ =>
            if env.dev_mode then
              .ok ("https://link.mercadopago.com/error-exception-" ++
                toString orderId)
            else
              .ok ("https://link.mercadopago.com/error-exception-" ++
                toString orderId)

/-- C9 -- No collaborator failure escapes as an exception: for every query
outcome `get_products` returns a string (the textual error description on
failure), and for every environment and SDK outcome
`create_mercadopago_link` returns a link string (an error-describing link
on internal failure). -/
theorem tool_failures_return_text (dbQuery : Except String (List DbProduct))
    (env : MpEnv) (sdk : SdkOutcome) (orderId : Nat) :
    (∃ s, get_products dbQuery = .ok s) ∧
    (∀ e, dbQuery = .error e →
      get_products dbQuery = .ok ("Error getting products: " ++ e)) ∧
    (∃ s, create_mercadopago_link env sdk orderId = .ok s) ∧
    (∀ m, sdk = .raised m → env.mp_token ≠ none → env.dev_mode = false →
      create_mercadopago_link env sdk orderId =
        .ok ("https://link.mercadopago.com/error-exception-" ++
          toString orderId)) := by
  refine ⟨?_, ?_, ?_, ?_⟩
  · cases dbQuery with
    | error e => exact ⟨_, rfl⟩
    | ok data =>
        unfold get_products
        by_cases h : data.isEmpty <;> simp [h]
  · rintro e rfl
    rfl
  · obtain ⟨tok, dev⟩ := env
    cases tok with
    | none => exact ⟨_, rfl⟩
    | some t =>
        cases dev with
        | true => exact ⟨_, rfl⟩
        | false =>
            cases sdk with
            | created link => exact ⟨_, rfl⟩
            | badStatus st => exact ⟨_, rfl⟩
            | raised m => exact ⟨_, rfl⟩
  · rintro m rfl htok hdev
    obtain ⟨tok, dev⟩ := env
    cases tok with
    | none => exact absurd rfl htok
    | some t =>
        cases hdev
        rfl

/-- C9 witness: a timed-out query returns the error text, and a raised SDK
call with a configured token outside dev mode returns the synthetic error
link. -/
theorem tool_failures_return_text_witness :
    (Except.error "timeout" = (Except.error "timeout" :
        Except String (List DbProduct))) ∧
    get_products (Except.error "timeout") =
      .ok ("Error getting products: " ++ "timeout") ∧
    create_mercadopago_link { mp_token := some "tok", dev_mode := false }
        (.raised "boom") 123 =
      .ok ("https://link.mercadopago.com/error-exception-" ++ toString 123) :=
  ⟨rfl,
   (tool_failures_return_text (Except.error "timeout")
     { mp_token := some "tok", dev_mode := false } (.raised "boom") 123).2.1
     "timeout" rfl,
   (tool_failures_return_text (Except.error "timeout")
     { mp_token := some "tok", dev_mode := false } (.raised "boom") 123).2.2.2
     "boom" rfl (by simp) rfl⟩

end SalesAgent
